import Mathlib

/-!
Shallow embedding of `rag/app/manual.py` (chunk pipeline for PDF/DOCX
manuals): the geometry tag function, the reading-order chunk merger, the
section assigner, the outline-based level classifier, the DOCX Q/A
reconstruction loop, and the file-extension dispatch of `chunk`.

External collaborators (tokenizer `num_tokens_from_string`, image pasting,
`docx_question_level`, the OCR/layout engines) are modelled as parameters:
the tokenizer as a function `String → ℕ`, image pasting as an abstract
combine function on an image type `α`, and `docx_question_level` as data
carried on each paragraph.
-/

namespace Manual

/-! ## Geometry tagger (`tag` inner function, manual.py lines 246-249)

Python formats the four spatial fields with `"{:.1f}"`, which rounds the
(binary) float to one decimal digit with round-half-to-even.  We model the
values as rationals and the formatting as exact round-half-to-even of
`10 * q`; this agrees with CPython on inputs whose halfway cases are
exactly representable in binary (such as 10.25 and 50.75). -/

/-- Round a rational to the nearest integer, ties to even. -/
def roundHalfEven (q : ℚ) : ℤ :=
  if q - ⌊q⌋ < 1/2 then ⌊q⌋
  else if 1/2 < q - ⌊q⌋ then ⌊q⌋ + 1
  else if Even ⌊q⌋ then ⌊q⌋ else ⌊q⌋ + 1

/-- One-decimal rendering of the integer `n` of tenths. -/
def tenthsToString (n : ℤ) : String :=
  (if n < 0 then "-" else "") ++ toString (n.natAbs / 10) ++ "." ++ toString (n.natAbs % 10)

/-- Python `"{:.1f}".format` on a rational: one fractional digit,
round-half-to-even. -/
def fmt1 (q : ℚ) : String :=
  tenthsToString (roundHalfEven (10 * q))

/-- `tag(pn, left, right, top, bottom)` from `chunk` (manual.py 246-249):
empty string when the five fields sum to zero, otherwise
`"@@pn\tleft\tright\ttop\tbottom##"` with one-decimal formatting of the
four spatial fields. -/
def tag (pn : ℤ) (l r t b : ℚ) : String :=
  if (pn : ℚ) + l + r + t + b = 0 then ""
  else "@@" ++ toString pn ++ "\t" ++ fmt1 l ++ "\t" ++ fmt1 r ++ "\t" ++ fmt1 t ++ "\t" ++ fmt1 b ++ "##"

/-! ## Chunk merger (manual.py lines 251-274)

An item of the merge loop is one element of the combined `sections` list
(text blocks with their assigned section id, plus tables with section id
`-1`), carrying its text, its section id and its list of geometry
positions.  The loop below processes the items in the order the Python
loop sees them, i.e. after the reading-order sort. -/

/-- One geometry position `(page, left, right, top, bottom)`. -/
abbrev Pos : Type := ℤ × ℚ × ℚ × ℚ × ℚ

/-- One item of the merge loop: `(text, section id, positions)`. -/
abbrev Item : Type := String × ℤ × List Pos

/-- `"\t".join(tag(*pos) for pos in poss)` (manual.py line 259). -/
def tagJoin (poss : List Pos) : String :=
  String.intercalate "\t" (poss.map fun p => tag p.1 p.2.1 p.2.2.1 p.2.2.2.1 p.2.2.2.2)

/-- State of the merge loop: produced chunks, `last_sid` (initially the
sentinel `-2`) and the running token count `tk_cnt`. -/
structure MState where
  chunks : List String
  lastSid : ℤ
  tkCnt : ℕ

/-- Initial merge state (manual.py lines 251-253). -/
def initMState : MState := ⟨[], -2, 0⟩

/-- The merge predicate (manual.py lines 263-265): merging is disabled in
vision mode; otherwise merge when `tk_cnt < 32` or
(`tk_cnt < 1024` and the item's section id equals `last_sid` or is `-1`). -/
def shouldMerge (usingVision : Bool) (tkCnt : ℕ) (secId lastSid : ℤ) : Bool :=
  !usingVision && (decide (tkCnt < 32) || (decide (tkCnt < 1024) && (secId == lastSid || secId == -1)))

/-- `chunks[-1] += suffix`: append `suffix` to the last element. -/
def appendToLast (xs : List String) (suffix : String) : List String :=
  match xs with
  | [] => []
  | [x] => [x ++ suffix]
  | x :: y :: rest => x :: appendToLast (y :: rest) suffix

/-- One iteration of the merge loop (manual.py lines 258-274), given the
external tokenizer `tokens` and the vision-mode flag. -/
def mergeStep (tokens : String → ℕ) (uv : Bool) (st : MState) (it : Item) : MState :=
  if shouldMerge uv st.tkCnt it.2.1 st.lastSid && !st.chunks.isEmpty then
    { chunks := appendToLast st.chunks ("\n" ++ it.1 ++ tagJoin it.2.2)
      lastSid := st.lastSid
      tkCnt := st.tkCnt + tokens it.1 }
  else
    { chunks := st.chunks ++ [it.1 ++ tagJoin it.2.2]
      lastSid := if it.2.1 > -1 then it.2.1 else st.lastSid
      tkCnt := tokens it.1 }

/-- `using_vision_parser` (manual.py line 256): `all(sec_id == 0)` over the
combined sections list when it is non-empty, `False` otherwise. -/
def usingVisionParser (items : List Item) : Bool :=
  if items.isEmpty then false else items.all fun it => it.2.1 == 0

/-- The full merge loop: fold `mergeStep` over the (reading-order sorted)
items and return the produced chunk texts. -/
def mergeChunks (tokens : String → ℕ) (items : List Item) : List String :=
  (items.foldl (mergeStep tokens (usingVisionParser items)) initMState).chunks

theorem appendToLast_length (xs : List String) (s : String) :
    (appendToLast xs s).length = xs.length := by
  induction xs with
  | nil => rfl
  | cons x rest ih =>
    cases rest with
    | nil => rfl
    | cons y t => simpa [appendToLast] using ih

/-- With the vision-mode flag set, every item of the loop opens a fresh
chunk, so folding over `items` adds exactly `items.length` chunks. -/
theorem foldl_mergeStep_vision_length (tokens : String → ℕ) (items : List Item) (st : MState) :
    ((items.foldl (mergeStep tokens true) st).chunks.length = st.chunks.length + items.length) := by
  induction items generalizing st with
  | nil => simp
  | cons it rest ih =>
    have hstep : mergeStep tokens true st it =
        { chunks := st.chunks ++ [it.1 ++ tagJoin it.2.2]
          lastSid := if it.2.1 > -1 then it.2.1 else st.lastSid
          tkCnt := tokens it.1 } := by
      simp [mergeStep, shouldMerge]
    simp only [List.foldl_cons, hstep]
    rw [ih]
    simp
    omega

/-- Concrete tokenizer for the C1 scenario: token length = string length. -/
def c1Tokens : String → ℕ := String.length

/-- Items for the C1 scenario: a 32-character block of section 1 followed by
a block of the same section, both with all-zero geometry. -/
def c1Items : List Item :=
  [(String.mk (List.replicate 32 'a'), 1, [(0, 0, 0, 0, 0)]),
   ("b", 1, [(0, 0, 0, 0, 0)])]

/-- C1 counterexample: after the first item the open chunk has
`tk_cnt = 32` and `last_sid = 1`; the second item carries the same section
id `1`, and the merge loop MERGES it (one output chunk, not two), because
`tk_cnt < 1024 ∧ sec_id = last_sid` holds — refuting the claim that an item
arriving at `tokenCount` exactly 32 under the same section starts a new
chunk. -/
theorem c1_counterexample : (mergeChunks c1Tokens c1Items).length = 1 := by decide

/-- C1 (amended): with merging enabled (non-vision mode) and a chunk open,
an item merges into the open chunk (chunk count unchanged) exactly when
`tk_cnt < 32`, or `tk_cnt < 1024` and its section id equals `last_sid` or
is `-1`; in particular at `tk_cnt = 32` under the same section it merges
rather than starting a new chunk. -/
theorem c1_merge_rule (tokens : String → ℕ) (st : MState) (it : Item)
    (hopen : st.chunks ≠ []) :
    ((mergeStep tokens false st it).chunks.length = st.chunks.length ↔
      (st.tkCnt < 32 ∨ (st.tkCnt < 1024 ∧ (it.2.1 = st.lastSid ∨ it.2.1 = -1)))) := by
  have hne : st.chunks.isEmpty = false := by
    cases h : st.chunks with
    | nil => exact absurd h hopen
    | cons a l => rfl
  cases hb : shouldMerge false st.tkCnt it.2.1 st.lastSid with
  | true =>
    have hc : st.tkCnt < 32 ∨ (st.tkCnt < 1024 ∧ (it.2.1 = st.lastSid ∨ it.2.1 = -1)) := by
      simpa [shouldMerge] using hb
    simp [mergeStep, hb, hne, appendToLast_length, hc]
  | false =>
    have hc : ¬ (st.tkCnt < 32 ∨ (st.tkCnt < 1024 ∧ (it.2.1 = st.lastSid ∨ it.2.1 = -1))) := by
      simpa [shouldMerge] using hb
    simp only [mergeStep, hb, Bool.false_and, if_neg Bool.false_ne_true]
    simp [hc]

/-- Witness for `c1_merge_rule` at a concrete state: open chunk `["x"]`,
`tk_cnt = 32`, `last_sid = 1`, incoming item of section 1 merges. -/
theorem c1_merge_rule_witness :
    (mergeStep String.length false ⟨["x"], 1, 32⟩ ("b", 1, [])).chunks.length =
      (["x"] : List String).length :=
  (c1_merge_rule String.length ⟨["x"], 1, 32⟩ ("b", 1, []) (by decide)).mpr
    (Or.inr ⟨by decide, Or.inl rfl⟩)

/-- Concrete tokenizer for the C2 scenario. -/
def c2Tokens : String → ℕ := String.length

/-- Items for the C2 scenario: a section-0 block, then a section-1 block
that will be merged into the open chunk while `tk_cnt < 32`. -/
def c2Items : List Item :=
  [("aaa", 0, [(0, 0, 0, 0, 0)]), ("b", 1, [(0, 0, 0, 0, 0)])]

/-- C2 counterexample: the second item (section id 1, not -1) is merged
into the open chunk (a single output chunk), yet `last_sid` remains 0
afterwards — refuting the claim that `last_sid` is updated for every
processed item with section id ≠ -1 whether merged or not. -/
theorem c2_counterexample :
    (c2Items.foldl (mergeStep c2Tokens (usingVisionParser c2Items)) initMState).lastSid = 0 ∧
    (c2Items.foldl (mergeStep c2Tokens (usingVisionParser c2Items)) initMState).chunks.length = 1 := by
  decide

/-- C2 (amended): `last_sid` is updated only when an item starts a new
chunk: an item merged into the open chunk (chunk count unchanged) leaves
`last_sid` unchanged, and an item that starts a new chunk (chunk count
grows by one) sets `last_sid` to its section id when that id is > -1 and
leaves it unchanged otherwise; in particular tables (section id -1) never
change it. -/
theorem c2_lastSid_rule (tokens : String → ℕ) (uv : Bool) (st : MState) (it : Item) :
    ((mergeStep tokens uv st it).chunks.length = st.chunks.length →
        (mergeStep tokens uv st it).lastSid = st.lastSid)
  ∧ ((mergeStep tokens uv st it).chunks.length = st.chunks.length + 1 →
        (mergeStep tokens uv st it).lastSid = (if it.2.1 > -1 then it.2.1 else st.lastSid)) := by
  unfold mergeStep
  split
  · constructor
    · intro _; rfl
    · intro h
      rw [appendToLast_length] at h
      omega
  · constructor
    · intro h
      simp at h
    · intro _; rfl

/-- Witness for `c2_lastSid_rule`: merging a section-1 item into the open
chunk `["x"]` at `last_sid = 0` leaves `last_sid = 0`. -/
theorem c2_lastSid_rule_witness :
    (mergeStep String.length false ⟨["x"], 0, 3⟩ ("b", 1, [])).lastSid = 0 :=
  (c2_lastSid_rule String.length false ⟨["x"], 0, 3⟩ ("b", 1, [])).1 (by decide)

/-- Tokenizer for the C3 counterexample. -/
def c3CeTokens : String → ℕ := String.length

/-- Merge input for the C3 counterexample: two blocks with section id 0
plus one table item, which enters the combined list with section id -1
(manual.py 244). -/
def c3CeItems : List Item :=
  [("a", 0, [(0, 0, 0, 0, 0)]), ("b", 0, [(0, 0, 0, 0, 0)]),
   ("t", -1, [(0, 0, 0, 0, 0)])]

/-- C3 counterexample: every BLOCK of this input has section id 0, yet the
table (section id -1) makes `all(sec_id == 0)` over the combined list
false (manual.py 256), so merging stays enabled and the three input items
collapse into a single chunk (tk_cnt < 32 merges) — refuting "merging is
disabled entirely and the number of output chunks equals the number of
input items" for inputs whose blocks are all at section id 0. -/
theorem c3_counterexample :
    (mergeChunks c3CeTokens c3CeItems).length = 1 ∧ c3CeItems.length = 3 ∧
      usingVisionParser c3CeItems = false := by
  decide

/-- C3 (amended): when every item of the combined merge input — blocks AND
tables, so in particular no table is present — has section id 0 (the
vision-parser signal), merging is disabled and the merge loop emits
exactly one chunk per input item. -/
theorem c3_vision_mode (tokens : String → ℕ) (items : List Item)
    (h : ∀ it ∈ items, it.2.1 = 0) :
    (mergeChunks tokens items).length = items.length := by
  cases hi : items with
  | nil => rfl
  | cons a l =>
    have huv : usingVisionParser (a :: l) = true := by
      simp only [usingVisionParser, List.isEmpty_cons, if_neg Bool.false_ne_true,
        List.all_eq_true]
      intro it hit
      have := h it (hi ▸ hit)
      simpa using this
    rw [mergeChunks, huv, foldl_mergeStep_vision_length]
    simp [initMState]

/-- Items for the C3 witness: two section-0 items. -/
def c3Items : List Item := [("a", 0, []), ("bb", 0, [])]

/-- Witness for `c3_vision_mode`: two all-zero-section items produce two
chunks. -/
theorem c3_vision_mode_witness :
    (mergeChunks String.length c3Items).length = c3Items.length :=
  c3_vision_mode String.length c3Items (by decide)

/-! ## Section assigner (manual.py lines 233-238)

`sid = 0; for i, lvl in enumerate(levels): if lvl <= most_level and i > 0
and lvl != levels[i-1]: sid += 1; sec_ids.append(sid)`. -/

/-- Tail of the section-id loop: `prev` is the previous block's level and
`sid` the current section id. -/
def secIdsAux (mostLevel : ℤ) : ℤ → ℕ → List ℤ → List ℕ
  | _, _, [] => []
  | prev, sid, l :: ls =>
      if l ≤ mostLevel ∧ l ≠ prev then (sid + 1) :: secIdsAux mostLevel l (sid + 1) ls
      else sid :: secIdsAux mostLevel l sid ls

/-- The section-id sequence: the first block always gets id 0 (the `i > 0`
guard), later blocks follow the loop. -/
def secIds (mostLevel : ℤ) : List ℤ → List ℕ
  | [] => []
  | l :: ls => 0 :: secIdsAux mostLevel l 0 ls

theorem secIdsAux_length (mostLevel : ℤ) (ls : List ℤ) : ∀ (prev : ℤ) (sid : ℕ),
    (secIdsAux mostLevel prev sid ls).length = ls.length := by
  induction ls with
  | nil => intro prev sid; rfl
  | cons l ls ih =>
    intro prev sid
    by_cases hc : l ≤ mostLevel ∧ l ≠ prev
    · simp [secIdsAux, if_pos hc, ih]
    · simp [secIdsAux, if_neg hc, ih]

theorem secIdsAux_mono (mostLevel : ℤ) (ls : List ℤ) : ∀ (prev : ℤ) (sid : ℕ),
    List.Chain' (· ≤ ·) (sid :: secIdsAux mostLevel prev sid ls) := by
  induction ls with
  | nil => intro prev sid; simp [secIdsAux]
  | cons l ls ih =>
    intro prev sid
    by_cases hc : l ≤ mostLevel ∧ l ≠ prev
    · rw [secIdsAux, if_pos hc, List.chain'_cons]
      exact ⟨Nat.le_succ sid, ih l (sid + 1)⟩
    · rw [secIdsAux, if_neg hc, List.chain'_cons]
      exact ⟨le_refl sid, ih l sid⟩

theorem secIdsAux_chain (mostLevel : ℤ) (ls : List ℤ) : ∀ (prev : ℤ) (sid : ℕ),
    List.Chain' (fun p q : ℤ × ℕ => q.2 = if q.1 ≤ mostLevel ∧ q.1 ≠ p.1 then p.2 + 1 else p.2)
      ((prev, sid) :: ls.zip (secIdsAux mostLevel prev sid ls)) := by
  induction ls with
  | nil => intro prev sid; simp [secIdsAux]
  | cons l ls ih =>
    intro prev sid
    by_cases hc : l ≤ mostLevel ∧ l ≠ prev
    · rw [secIdsAux, if_pos hc, List.zip_cons_cons, List.chain'_cons]
      exact ⟨(if_pos hc).symm, ih l (sid + 1)⟩
    · rw [secIdsAux, if_neg hc, List.zip_cons_cons, List.chain'_cons]
      exact ⟨(if_neg hc).symm, ih l sid⟩

/-- C4: the section-id sequence has the same length as the level sequence,
starts at 0, is non-decreasing, and each later id equals the previous id
plus one exactly when the block's level is ≤ the pivot and differs from
the immediately preceding block's level, and equals the previous id
otherwise. -/
theorem c4_section_ids (mostLevel : ℤ) (levels : List ℤ) :
    (secIds mostLevel levels).length = levels.length
  ∧ (secIds mostLevel levels).headI = 0
  ∧ List.Chain' (· ≤ ·) (secIds mostLevel levels)
  ∧ List.Chain' (fun p q : ℤ × ℕ => q.2 = if q.1 ≤ mostLevel ∧ q.1 ≠ p.1 then p.2 + 1 else p.2)
      (levels.zip (secIds mostLevel levels)) := by
  cases levels with
  | nil => simp [secIds]
  | cons l ls =>
    refine ⟨?_, rfl, ?_, ?_⟩
    · simp [secIds, secIdsAux_length]
    · exact secIdsAux_mono mostLevel ls l 0
    · rw [secIds, List.zip_cons_cons]
      exact secIdsAux_chain mostLevel ls l 0

/-! ## Outline-based level classifier (manual.py lines 214-226)

Texts are modelled as lists of characters so that slicing by index is
direct.  The Python float comparison `len(tks & tks_) / max(...) > 0.8` is
modelled exactly as `5 * |tks ∩ tks_| > 4 * max(...)`. -/

/-- The character-bigram list of a text:
`[s[i] + s[i+1] for i in range(len(s) - 1)]`. -/
def bigrams (s : List Char) : List (Char × Char) := s.zip s.tail

/-- The code's similarity test (manual.py 220-222): `tks` is the bigram set
of the whole outline text `t`; `tks_` takes the block's bigrams only for
indices `i < min(len(t), len(txt) - 1)`; the intersection size must exceed
0.8 of `max(|tks|, |tks_|, 1)`. -/
def simOK (t txt : List Char) : Bool :=
  decide (5 * (((bigrams t).toFinset) ∩ ((bigrams txt).take (min t.length (txt.length - 1))).toFinset).card >
    4 * max ((bigrams t).toFinset).card (max (((bigrams txt).take (min t.length (txt.length - 1))).toFinset).card 1))

/-- `max_lvl = max([lvl for _, lvl in outlines])` (manual.py 215); the
Python `max` is only reached with a non-empty outline, so the default 0 of
the model is never relevant on that path. -/
def maxOutlineLvl (outlines : List (List Char × ℤ)) : ℤ :=
  (outlines.map Prod.snd).maximum.unbot' 0

/-- Level assigned to one block text: the level of the first outline entry
passing `simOK`, else `max_lvl + 1` (the for-else of manual.py 219-226). -/
def findLevel (outlines : List (List Char × ℤ)) (maxLvl : ℤ) (txt : List Char) : ℤ :=
  match outlines.find? (fun e => simOK e.1 txt) with
  | some e => e.2
  | none => maxLvl + 1

/-- The outline path's level sequence, one level per section text. -/
def outlineLevels (outlines : List (List Char × ℤ)) (sections : List (List Char)) : List ℤ :=
  sections.map (findLevel outlines (maxOutlineLvl outlines))

/-- `most_level = max(0, max_lvl - 1)` (manual.py 216). -/
def outlinePivot (outlines : List (List Char × ℤ)) : ℤ :=
  max 0 (maxOutlineLvl outlines - 1)

/-- Following the spec's words (not the source), for comparison: Jaccard
similarity > 0.8 of the bigram sets of the first `k` characters of both
texts, `k = min(outline-text length, block-text length)`. -/
def specSimOK (t txt : List Char) : Bool :=
  decide (5 * ((bigrams (t.take (min t.length txt.length))).toFinset ∩
        (bigrams (txt.take (min t.length txt.length))).toFinset).card >
    4 * ((bigrams (t.take (min t.length txt.length))).toFinset ∪
        (bigrams (txt.take (min t.length txt.length))).toFinset).card)

/-- Following the spec's words: level of an entry with Jaccard bigram
similarity > 0.8, else `max_lvl + 1`. -/
def specFindLevel (outlines : List (List Char × ℤ)) (maxLvl : ℤ) (txt : List Char) : ℤ :=
  match outlines.find? (fun e => specSimOK e.1 txt) with
  | some e => e.2
  | none => maxLvl + 1

/-- Following the spec's words: the spec's version of the level sequence. -/
def specOutlineLevels (outlines : List (List Char × ℤ)) (sections : List (List Char)) : List ℤ :=
  sections.map (specFindLevel outlines (maxOutlineLvl outlines))

/-- Outline for the C5 scenario: the single entry "ab" at level 0. -/
def c5Outlines : List (List Char × ℤ) := [(['a', 'b'], 0)]

/-- Section texts for the C5 scenario: the single block "abc". -/
def c5Sections : List (List Char) := [['a', 'b', 'c']]

/-- C5 counterexample: outline entry "ab" (level 0), block "abc", density
1/1 > 0.03.  The code compares the full outline bigram set {ab} with the
block bigrams {ab, bc} (indices below min(len t, len txt - 1) = 2) and
gets ratio 1/2, assigning max_lvl + 1 = 1; the claim's rule (bigrams of
the first k = min(2,3) = 2 characters of both, Jaccard) gives 1 > 0.8 and
assigns level 0. -/
theorem c5_counterexample :
    outlineLevels c5Outlines c5Sections = [1]
  ∧ specOutlineLevels c5Outlines c5Sections = [0]
  ∧ 100 * c5Outlines.length > 3 * c5Sections.length := by decide

/-- C5 (amended): every block is assigned the level of the first outline
entry whose similarity test `len(tks ∩ tks_) / max(|tks|, |tks_|, 1) > 0.8`
passes, where `tks` is the bigram set of the whole outline text and `tks_`
the block's bigrams at indices below `min(len t, len txt - 1)`; when no
entry passes, the block gets `max_lvl + 1`; the pivot level is
`max(0, max_lvl - 1)`; one level per block. -/
theorem c5_outline_levels (outlines : List (List Char × ℤ)) (sections : List (List Char)) :
    (outlineLevels outlines sections).length = sections.length
  ∧ (∀ txt ∈ sections, (∀ e ∈ outlines, simOK e.1 txt = false) →
      findLevel outlines (maxOutlineLvl outlines) txt = maxOutlineLvl outlines + 1)
  ∧ (∀ txt ∈ sections, ∀ pre e post, outlines = pre ++ e :: post →
      simOK e.1 txt = true → (∀ e2 ∈ pre, simOK e2.1 txt = false) →
      findLevel outlines (maxOutlineLvl outlines) txt = e.2)
  ∧ outlinePivot outlines = max 0 (maxOutlineLvl outlines - 1)
  ∧ outlineLevels outlines sections = sections.map (findLevel outlines (maxOutlineLvl outlines)) := by
  refine ⟨by simp [outlineLevels], ?_, ?_, rfl, rfl⟩
  · intro txt _ hall
    have hnone : outlines.find? (fun e => simOK e.1 txt) = none := by
      rw [List.find?_eq_none]
      intro e he
      simp [hall e he]
    rw [findLevel, hnone]
  · intro txt _ pre e post hsplit hsim hpre
    have hprenone : pre.find? (fun e => simOK e.1 txt) = none := by
      rw [List.find?_eq_none]
      intro e2 he2
      simp [hpre e2 he2]
    have hfind : outlines.find? (fun e => simOK e.1 txt) = some e := by
      rw [hsplit, List.find?_append, hprenone, Option.none_or, List.find?_cons_of_pos]
      exact hsim
    rw [findLevel, hfind]

/-- Witness for `c5_outline_levels`: with outline [("ab", 0)] no entry
passes the code's similarity test on block "abc", so the block is assigned
`max_lvl + 1`. -/
theorem c5_outline_levels_witness :
    findLevel c5Outlines (maxOutlineLvl c5Outlines) ['a', 'b', 'c'] = maxOutlineLvl c5Outlines + 1 :=
  (c5_outline_levels c5Outlines c5Sections).2.1 ['a', 'b', 'c'] (by decide) (by decide)

/-! ## Geometry tagger theorems (claim C6) -/

theorem append_ne_empty (s t : String) (hs : s ≠ "") : s ++ t ≠ "" := by
  intro hc
  apply hs
  have hlen := congrArg String.length hc
  rw [String.length_append] at hlen
  have h0 : String.length "" = 0 := rfl
  have hz : s.length = 0 := by omega
  have hd : s.data.length = 0 := hz
  cases s with
  | mk data =>
    cases data with
    | nil => rfl
    | cons a l => simp at hd

/-- With non-negative fields, the zero-sum test of `tag` is equivalent to
all five fields being zero. -/
theorem tag_zero_sum_iff (pn : ℤ) (l r t b : ℚ) (hpn : 0 ≤ pn) (hl : 0 ≤ l)
    (hr : 0 ≤ r) (ht : 0 ≤ t) (hb : 0 ≤ b) :
    ((pn : ℚ) + l + r + t + b = 0) ↔ (pn = 0 ∧ l = 0 ∧ r = 0 ∧ t = 0 ∧ b = 0) := by
  have hpq : (0 : ℚ) ≤ (pn : ℚ) := by exact_mod_cast hpn
  constructor
  · intro h
    have h1 : (pn : ℚ) = 0 := by linarith
    exact ⟨by exact_mod_cast h1, by linarith, by linarith, by linarith, by linarith⟩
  · rintro ⟨h1, h2, h3, h4, h5⟩
    simp [h1, h2, h3, h4, h5]

theorem roundHalfEven_eval_down (q : ℚ) (f : ℤ) (hf : ⌊q⌋ = f) (h : q - f < 1/2) :
    roundHalfEven q = f := by
  rw [roundHalfEven, hf, if_pos h]

theorem roundHalfEven_eval_tie (q : ℚ) (f : ℤ) (hf : ⌊q⌋ = f) (h : q - f = 1/2) :
    roundHalfEven q = if Even f then f else f + 1 := by
  rw [roundHalfEven, hf, h]
  simp

theorem fmt1_10_25 : fmt1 (41/4) = "10.2" := by
  have h10 : (10 : ℚ) * (41/4) = 205/2 := by norm_num
  have hf : ⌊(205 : ℚ)/2⌋ = 102 := by norm_num
  have h : roundHalfEven ((205 : ℚ)/2) = 102 := by
    rw [roundHalfEven_eval_tie _ 102 hf (by norm_num)]
    decide
  unfold fmt1
  rw [h10, h]
  decide

theorem fmt1_50_75 : fmt1 (203/4) = "50.8" := by
  have h10 : (10 : ℚ) * (203/4) = 1015/2 := by norm_num
  have hf : ⌊(1015 : ℚ)/2⌋ = 507 := by norm_num
  have h : roundHalfEven ((1015 : ℚ)/2) = 508 := by
    rw [roundHalfEven_eval_tie _ 507 hf (by norm_num)]
    decide
  unfold fmt1
  rw [h10, h]
  decide

theorem fmt1_100 : fmt1 100 = "100.0" := by
  have h10 : (10 : ℚ) * 100 = 1000 := by norm_num
  have h : roundHalfEven (1000 : ℚ) = 1000 :=
    roundHalfEven_eval_down _ 1000 (by norm_num) (by norm_num)
  unfold fmt1
  rw [h10, h]
  decide

theorem fmt1_120_333 : fmt1 (120333/1000) = "120.3" := by
  have h10 : (10 : ℚ) * (120333/1000) = 120333/100 := by norm_num
  have h : roundHalfEven ((120333 : ℚ)/100) = 1203 :=
    roundHalfEven_eval_down _ 1203 (by norm_num) (by norm_num)
  unfold fmt1
  rw [h10, h]
  decide

/-- Evaluation of `tag` on the concrete fragment of the claim. -/
theorem tag_concrete :
    tag 3 (41/4) (203/4) 100 (120333/1000) = "@@3\t10.2\t50.8\t100.0\t120.3##" := by
  have hsum : ((3 : ℤ) : ℚ) + 41/4 + 203/4 + 100 + 120333/1000 ≠ 0 := by norm_num
  unfold tag
  rw [if_neg hsum, fmt1_10_25, fmt1_50_75, fmt1_100, fmt1_120_333]
  decide

/-- C6 counterexample: the tag of `(3, 10.25, 50.75, 100.0, 120.333)` is
`"@@3\t10.2\t50.8\t100.0\t120.3##"`, not the `"...10.3..."` the claim
asserts: 10.25 is a half-way case and one-decimal formatting rounds it to
even, i.e. to 10.2. -/
theorem c6_counterexample :
    tag 3 (41/4) (203/4) 100 (120333/1000) = "@@3\t10.2\t50.8\t100.0\t120.3##"
  ∧ tag 3 (41/4) (203/4) 100 (120333/1000) ≠ "@@3\t10.3\t50.8\t100.0\t120.3##" := by
  refine ⟨tag_concrete, ?_⟩
  rw [tag_concrete]
  decide

/-- C6 (amended): `tag` is a pure function mapping a fragment to
`"@@page\tleft\tright\ttop\tbottom##"` with one-decimal formatting of the
four spatial fields; on non-negative fields it returns the empty string
exactly when all five fields are zero; and it maps
`(3, 10.25, 50.75, 100.0, 120.333)` to `"@@3\t10.2\t50.8\t100.0\t120.3##"`
(round-half-to-even at the 10.25 tie, `.0` suffix preserved). -/
theorem c6_tag (pn : ℤ) (l r t b : ℚ) (hpn : 0 ≤ pn) (hl : 0 ≤ l)
    (hr : 0 ≤ r) (ht : 0 ≤ t) (hb : 0 ≤ b) :
    (tag pn l r t b = "" ↔ (pn = 0 ∧ l = 0 ∧ r = 0 ∧ t = 0 ∧ b = 0))
  ∧ (¬(pn = 0 ∧ l = 0 ∧ r = 0 ∧ t = 0 ∧ b = 0) →
      tag pn l r t b =
        "@@" ++ toString pn ++ "\t" ++ fmt1 l ++ "\t" ++ fmt1 r ++ "\t" ++ fmt1 t ++ "\t" ++ fmt1 b ++ "##")
  ∧ tag 3 (41/4) (203/4) 100 (120333/1000) = "@@3\t10.2\t50.8\t100.0\t120.3##" := by
  have key := tag_zero_sum_iff pn l r t b hpn hl hr ht hb
  refine ⟨?_, ?_, tag_concrete⟩
  · by_cases hz : (pn : ℚ) + l + r + t + b = 0
    · rw [tag, if_pos hz]
      simp [key.mp hz]
    · rw [tag, if_neg hz]
      constructor
      · intro habs
        exact absurd habs (append_ne_empty "@@" _ (by decide))
      · intro hconj
        exact absurd (key.mpr hconj) hz
  · intro hnz
    rw [tag, if_neg (fun hz => hnz (key.mp hz))]

/-- Witness for `c6_tag`: the all-zero fragment yields the empty tag. -/
theorem c6_tag_witness : tag 0 0 0 0 0 = "" :=
  ((c6_tag 0 0 0 0 0 le_rfl le_rfl le_rfl le_rfl le_rfl).1).mpr ⟨rfl, rfl, rfl, rfl, rfl⟩

/-! ## DOCX Q/A reconstruction (`Docx.__call__`, manual.py lines 103-173)

`docx_question_level` is an external collaborator: each paragraph carries
the `(question_level, p_text)` pair it would return, together with its raw
text (used only for the `p.text.strip()` check), its embedded image (if
any) and the number of page-break runs found among its runs.  Images are
abstract: the PIL vertical concatenation is an opaque-to-us combine
function `comb`.  The model covers the `vision_model = None` path, the one
taken for the standard DeepDOC / Plain-Text configurations.

In the heading branch, Python resets `last_answer`/`last_image` inside
`if last_answer or last_image:`; when that guard is false both are already
empty, so the model resets them unconditionally — extensionally the same
state. -/

/-- One paragraph of the DOCX document. -/
structure Paragraph (α : Type) where
  rawText : String
  qLevel : ℤ
  pText : String
  image : Option α
  pageBreaks : ℕ

/-- `concat_img` (manual.py 84-101), with the actual pasting abstracted as
`comb`. -/
def concatImg (comb : α → α → α) : Option α → Option α → Option α
  | some a, none => some a
  | none, some b => some b
  | none, none => none
  | some a, some b => some (comb a b)

/-- Loop state of `Docx.__call__`: page counter, pending answer text and
image, the question/level stack (top at the head; the Python lists keep
the top at the end), and the emitted `(text, image)` units. -/
structure DState (α : Type) where
  pn : ℕ
  lastAnswer : String
  lastImage : Option α
  stack : List (String × ℤ)
  tiList : List (String × Option α)

/-- Initial state (manual.py 105-108). -/
def initDState : DState α := ⟨0, "", none, [], []⟩

/-- `"\n".join(question_stack)`, bottom to top; the model's stack head is
the top, hence the reverse. -/
def joinStack (stack : List (String × ℤ)) : String :=
  String.intercalate "\n" (stack.reverse.map Prod.fst)

theorem joinStack_nil : joinStack [] = "" := rfl

/-- `while question_stack and i <= level_stack[-1]: pop` (manual.py
137-139). -/
def popWhile (lvl : ℤ) : List (String × ℤ) → List (String × ℤ)
  | [] => []
  | (q, l) :: rest => if lvl ≤ l then popWhile lvl rest else (q, l) :: rest

/-- Truthiness of Python `s.strip()`: the text has some non-whitespace
character. -/
def hasContent (s : String) : Bool :=
  s.data.any fun c => !c.isWhitespace

/-- `from_page <= pn < to_page and p.text.strip()` (manual.py 113). -/
abbrev inPageRange (fromPage toPage pn : ℕ) (p : Paragraph α) : Prop :=
  fromPage ≤ pn ∧ pn < toPage ∧ hasContent p.rawText = true

/-- The `question_level` in effect for a paragraph: `docx_question_level`'s
value inside the page range, 0 outside (manual.py 112-114). -/
def qlOf (fromPage toPage : ℕ) (st : DState α) (p : Paragraph α) : ℤ :=
  if inPageRange fromPage toPage st.pn p then p.qLevel else 0

/-- The `p_text` in effect for a paragraph (manual.py 112-114). -/
def ptextOf (fromPage toPage : ℕ) (st : DState α) (p : Paragraph α) : String :=
  if inPageRange fromPage toPage st.pn p then p.pText else ""

/-- Processing of one paragraph (manual.py 110-147): a non-heading
paragraph (level 0 or >6) accumulates text and image; a heading emits the
pending unit when the answer buffer or image is non-empty and the joined
stack is non-empty, then pops the stack while the incoming level is ≤ the
top level and pushes the heading.  The page counter grows by the
paragraph's page-break runs. -/
def docxStep (comb : α → α → α) (fromPage toPage : ℕ) (st : DState α) (p : Paragraph α) :
    DState α :=
  if qlOf fromPage toPage st p = 0 ∨ 6 < qlOf fromPage toPage st p then
    { pn := st.pn + p.pageBreaks
      lastAnswer := st.lastAnswer ++ "\n" ++ ptextOf fromPage toPage st p
      lastImage := concatImg comb st.lastImage p.image
      stack := st.stack
      tiList := st.tiList }
  else
    { pn := st.pn + p.pageBreaks
      lastAnswer := ""
      lastImage := none
      stack := (ptextOf fromPage toPage st p, qlOf fromPage toPage st p) ::
        popWhile (qlOf fromPage toPage st p) st.stack
      tiList :=
        if (st.lastAnswer ≠ "" ∨ st.lastImage.isSome = true) ∧ joinStack st.stack ≠ "" then
          st.tiList ++ [(joinStack st.stack ++ "\n" ++ st.lastAnswer, st.lastImage)]
        else st.tiList }

/-- The paragraph loop with its `if pn > to_page: break` (manual.py
109-111). -/
def docxLoop (comb : α → α → α) (fromPage toPage : ℕ) : DState α → List (Paragraph α) → DState α
  | st, [] => st
  | st, p :: ps =>
      if toPage < st.pn then st
      else docxLoop comb fromPage toPage (docxStep comb fromPage toPage st p) ps

/-- The trailing flush (manual.py 148-151): only a non-empty answer text
triggers it, and only a non-empty joined stack emits. -/
def docxFlush (st : DState α) : List (String × Option α) :=
  if st.lastAnswer ≠ "" then
    if joinStack st.stack ≠ "" then
      st.tiList ++ [(joinStack st.stack ++ "\n" ++ st.lastAnswer, st.lastImage)]
    else st.tiList
  else st.tiList

/-- `Docx.__call__`'s `ti_list` output. -/
def docxCall (comb : α → α → α) (fromPage toPage : ℕ) (ps : List (Paragraph α)) :
    List (String × Option α) :=
  docxFlush (docxLoop comb fromPage toPage initDState ps)

/-- The paragraph stream of claim C7: `H1(level 1), P1, H2(level 2), P2,
H3(level 1)`, no images, no page breaks. -/
def c7Paragraphs : List (Paragraph Unit) :=
  [⟨"H1", 1, "H1", none, 0⟩, ⟨"P1", 0, "P1", none, 0⟩, ⟨"H2", 2, "H2", none, 0⟩,
   ⟨"P2", 0, "P2", none, 0⟩, ⟨"H3", 1, "H3", none, 0⟩]

/-- C7: on the stream H1(1), P1, H2(2), P2, H3(1) exactly two units are
emitted: one keyed "H1" with answer P1 and one keyed "H1\nH2" with answer
P2 (each unit's text is the key, a newline, then the answer buffer, which
itself starts with the "\n" separator prepended at accumulation); no
trailing unit follows H3, and H3 at level 1 has popped both H2 and H1, so
the final stack holds exactly ("H3", 1). -/
theorem c7_qa_stream :
    docxCall (fun _ _ => ()) 0 10000 c7Paragraphs =
      [("H1" ++ "\n" ++ "\n" ++ "P1", none), ("H1" ++ "\n" ++ "H2" ++ "\n" ++ "\n" ++ "P2", none)]
  ∧ (docxLoop (fun _ _ => ()) 0 10000 initDState c7Paragraphs).stack = [("H3", 1)] := by
  constructor
  · decide
  · decide

/-- A state past the page bound is left unchanged by the loop (the
`break`). -/
theorem docxLoop_of_break (comb : α → α → α) (fromPage toPage : ℕ) (st : DState α)
    (ys : List (Paragraph α)) (h : toPage < st.pn) :
    docxLoop comb fromPage toPage st ys = st := by
  cases ys with
  | nil => rfl
  | cons y ys => simp [docxLoop, h]

/-- The paragraph loop splits over list append. -/
theorem docxLoop_append (comb : α → α → α) (fromPage toPage : ℕ) (st : DState α)
    (xs ys : List (Paragraph α)) :
    docxLoop comb fromPage toPage st (xs ++ ys) =
      docxLoop comb fromPage toPage (docxLoop comb fromPage toPage st xs) ys := by
  induction xs generalizing st with
  | nil => rfl
  | cons x xs ih =>
    simp only [List.cons_append, docxLoop]
    split
    · rename_i hbr
      exact (docxLoop_of_break comb fromPage toPage st ys hbr).symm
    · exact ih _

/-- A run of non-heading paragraphs without page breaks keeps the page
counter at 0 and never touches the stack or the emitted list. -/
theorem docxLoop_nonheading (comb : α → α → α) (ps : List (Paragraph α))
    (hps : ∀ p ∈ ps, (p.qLevel = 0 ∨ 6 < p.qLevel) ∧ p.pageBreaks = 0) :
    ∀ (a : String) (img : Option α), ∃ a2 img2,
      docxLoop comb 0 10000 ⟨0, a, img, [], []⟩ ps = ⟨0, a2, img2, [], []⟩ := by
  induction ps with
  | nil => exact fun a img => ⟨a, img, rfl⟩
  | cons p ps ih =>
    intro a img
    have hp := hps p (List.mem_cons_self p ps)
    have hql : qlOf 0 10000 (⟨0, a, img, [], []⟩ : DState α) p = 0 ∨
        6 < qlOf 0 10000 (⟨0, a, img, [], []⟩ : DState α) p := by
      rw [qlOf]
      split
      · exact hp.1
      · exact Or.inl rfl
    have hstep : docxStep comb 0 10000 (⟨0, a, img, [], []⟩ : DState α) p =
        ⟨0, a ++ "\n" ++ ptextOf 0 10000 ⟨0, a, img, [], []⟩ p,
          concatImg comb img p.image, [], []⟩ := by
      unfold docxStep
      rw [if_pos hql, hp.2]
    simp only [docxLoop]
    rw [if_neg (by decide), hstep]
    exact ih (fun q hq => hps q (List.mem_cons_of_mem p hq)) _ _

/-- Processing a heading from a stack-empty, nothing-emitted state at page
0 discards any pending answer/image and yields the same state as
processing it from the initial state. -/
theorem docxStep_heading_reset (comb : α → α → α) (h : Paragraph α)
    (hh1 : 1 ≤ h.qLevel) (hh2 : h.qLevel ≤ 6) (hh3 : hasContent h.rawText = true)
    (a : String) (img : Option α) :
    docxStep comb 0 10000 (⟨0, a, img, [], []⟩ : DState α) h =
      ⟨h.pageBreaks, "", none, [(h.pText, h.qLevel)], []⟩ := by
  have hin : inPageRange 0 10000 (0 : ℕ) h := ⟨Nat.zero_le 0, by omega, hh3⟩
  have hql : qlOf 0 10000 (⟨0, a, img, [], []⟩ : DState α) h = h.qLevel := if_pos hin
  have hpt : ptextOf 0 10000 (⟨0, a, img, [], []⟩ : DState α) h = h.pText := if_pos hin
  unfold docxStep
  rw [hql, hpt, if_neg (by omega), if_neg (by simp [joinStack_nil])]
  simp [popWhile]

/-- C9: content accumulated while the heading stack is empty is silently
discarded.  For a stream of non-heading paragraphs (no page breaks), the
output is empty — the trailing flush finds an empty joined heading path —
and prefixing such a stream before the first heading does not change the
output at all: the heading resets the buffers without emitting. -/
theorem c9_headless_discard (comb : α → α → α) (ps : List (Paragraph α))
    (hps : ∀ p ∈ ps, (p.qLevel = 0 ∨ 6 < p.qLevel) ∧ p.pageBreaks = 0)
    (h : Paragraph α) (hh1 : 1 ≤ h.qLevel) (hh2 : h.qLevel ≤ 6)
    (hh3 : hasContent h.rawText = true) (rest : List (Paragraph α)) :
    docxCall comb 0 10000 ps = []
  ∧ docxCall comb 0 10000 (ps ++ h :: rest) = docxCall comb 0 10000 (h :: rest) := by
  obtain ⟨a2, img2, hloop⟩ := docxLoop_nonheading comb ps hps "" none
  have hinit : (initDState : DState α) = ⟨0, "", none, [], []⟩ := rfl
  constructor
  · rw [docxCall, hinit, hloop, docxFlush]
    split
    · rw [if_neg (by simp [joinStack_nil])]
    · rfl
  · rw [docxCall, docxCall, hinit, docxLoop_append, hloop]
    have e1 : docxLoop comb 0 10000 (⟨0, a2, img2, [], []⟩ : DState α) (h :: rest) =
        docxLoop comb 0 10000 ⟨h.pageBreaks, "", none, [(h.pText, h.qLevel)], []⟩ rest := by
      simp only [docxLoop]
      rw [if_neg (by decide), docxStep_heading_reset comb h hh1 hh2 hh3]
    have e2 : docxLoop comb 0 10000 (⟨0, "", none, [], []⟩ : DState α) (h :: rest) =
        docxLoop comb 0 10000 ⟨h.pageBreaks, "", none, [(h.pText, h.qLevel)], []⟩ rest := by
      simp only [docxLoop]
      rw [if_neg (by decide), docxStep_heading_reset comb h hh1 hh2 hh3]
    rw [e1, e2]

/-- Non-heading prefix for the C9 witness. -/
def c9Ps : List (Paragraph Unit) := [⟨"P0", 0, "P0", none, 0⟩]

/-- Heading for the C9 witness. -/
def c9H : Paragraph Unit := ⟨"H", 1, "H", none, 0⟩

/-- Witness for `c9_headless_discard`: the lone pre-heading paragraph "P0"
yields no unit, and prefixing it before the heading "H" changes nothing. -/
theorem c9_headless_discard_witness :
    docxCall (fun _ _ => ()) 0 10000 c9Ps = []
  ∧ docxCall (fun _ _ => ()) 0 10000 (c9Ps ++ c9H :: []) =
      docxCall (fun _ _ => ()) 0 10000 (c9H :: []) :=
  c9_headless_discard (fun _ _ => ()) c9Ps (by decide) c9H (by decide) (by decide)
    (by decide) []

/-! ## The DOCX branch of `chunk` and claim C10 -/

/-- A DOCX document as `Docx.__call__` sees it: its paragraph stream and
its tables (the table markup construction from `doc.tables`, manual.py
153-172, never consults the page range). -/
structure DocxDocument (α : Type) where
  paragraphs : List (Paragraph α)
  tables : List String

/-- `Docx.__call__`'s full result `(ti_list, tbls)` for a requested page
range. -/
def docxParse (comb : α → α → α) (fromPage toPage : ℕ) (d : DocxDocument α) :
    List (String × Option α) × List String :=
  (docxCall comb fromPage toPage d.paragraphs, d.tables)

/-- The DOCX branch of `chunk` (manual.py 311): the parser is invoked with
the fixed range `from_page=0, to_page=10000`, regardless of `chunk`'s own
`from_page`/`to_page` arguments (which are simply never used on this
branch). -/
def chunkDocxBranch (comb : α → α → α) (d : DocxDocument α)
    (fromPage toPage : ℕ) : List (String × Option α) × List String :=
  docxParse comb 0 10000 d

/-- C10: for every DOCX document, the output of the DOCX branch of `chunk`
is independent of the `from_page`/`to_page` arguments passed to `chunk`. -/
theorem c10_page_range_ignored (comb : α → α → α) (d : DocxDocument α)
    (fp tp fp2 tp2 : ℕ) :
    chunkDocxBranch comb d fp tp = chunkDocxBranch comb d fp2 tp2 := rfl

/-! ## Extension dispatch of `chunk` (manual.py 188, 280, 321-322)

`re.search(r"\.pdf$", filename, re.IGNORECASE)` and
`re.search(r"\.docx?$", filename, re.IGNORECASE)`: `$` matches at the end
of the string or just before one trailing newline; `re.IGNORECASE` is
modelled by lower-casing both sides (the patterns are ASCII). -/

/-- Python `re.search` of an end-anchored plain pattern. -/
def pyEndMatch (pat s : String) : Bool :=
  pat.data.isSuffixOf s.data || (pat.data ++ ['\n']).isSuffixOf s.data

/-- Case-insensitive preparation of the filename. -/
def lowerStr (s : String) : String := ⟨s.data.map Char.toLower⟩

/-- `re.search(r"\.pdf$", filename, re.IGNORECASE)` (manual.py 188). -/
def matchesPdf (filename : String) : Bool :=
  pyEndMatch ".pdf" (lowerStr filename)

/-- `re.search(r"\.docx?$", filename, re.IGNORECASE)` (manual.py 280). -/
def matchesDocx (filename : String) : Bool :=
  pyEndMatch ".docx" (lowerStr filename) || pyEndMatch ".doc" (lowerStr filename)

/-- The two supported branches of `chunk`. -/
inductive ChunkBranch where
  | pdf
  | docx

/-- The dispatch of `chunk` on the filename: the PDF branch, else the DOCX
branch, else `raise NotImplementedError(...)` before any extraction work —
the error case carries no output. -/
def chunkDispatch (filename : String) : Except String ChunkBranch :=
  if matchesPdf filename then Except.ok ChunkBranch.pdf
  else if matchesDocx filename then Except.ok ChunkBranch.docx
  else Except.error "file type not supported yet(pdf and docx supported)"

/-- C8: `chunk` raises the unsupported-format error exactly for filenames
matching neither the `.pdf` nor the `.doc`/`.docx` pattern
(case-insensitive, end-anchored); matching filenames are dispatched to a
branch and no such error is raised. -/
theorem c8_unsupported_dispatch (filename : String) :
    (chunkDispatch filename =
        Except.error "file type not supported yet(pdf and docx supported)") ↔
      (matchesPdf filename = false ∧ matchesDocx filename = false) := by
  unfold chunkDispatch
  cases h1 : matchesPdf filename
  · cases h2 : matchesDocx filename
    · simp
    · simp
  · simp

end Manual
